import Mathlib

/-!
Verification development for the robosla-agent device-control core.

The definitions below are a shallow embedding of the Go sources:
* `gcode.AddLineAndHash` embeds `src/gcode/gcode.go` (wire framing codec);
* the `Request` / `TrafficState` machinery embeds the serial downlink
  `RealDownlink` (`handleTraffic`, `readFromDevice`, `waitForOK`,
  `takeLineno`, connection initialization in `Run`);
* `getNewJobContext` / `fetchAndPrintVerb` embed the job slot of
  `src/shell.go`;
* `executeGcodeProgressTrace` and `executeGcodeRetryStep` embed the
  progress/retry logic of `Executor.ExecuteGcode` in `src/executor.go`;
* `getURLModel` / `pathClean` embed `Executor.getURL`.

Go strings are modelled as Lean `String` (or `List Char` where byte-level
reasoning is needed); Go's per-byte operations use the UTF-8 byte sequence
via `String.utf8EncodeChar`, matching Go's byte iteration exactly.
Go `map` values are modelled as association lists with Go map semantics
(lookup / overwrite / delete); channels are modelled by identifiers, and
channel operations by explicit events.
-/

namespace Robosla

/-! ## Wire framing codec (src/gcode/gcode.go) -/

/-- UTF-8 bytes of a string, as naturals.  This is exactly the byte
sequence Go iterates over with `str[i]`. -/
def stringBytes (s : String) : List Nat :=
  (s.data.map (fun c => (String.utf8EncodeChar c).map UInt8.toNat)).flatten

/-- The XOR fold `var sum byte; for i := 0; i < len(str); i++ { sum ^= str[i] }`
from `AddLineAndHash`.  Since every UTF-8 byte is below 256 the fold never
leaves the byte range, so no truncation is needed. -/
def byteXorFold (s : String) : Nat :=
  (stringBytes s).foldl (fun a b => a ^^^ b) 0

namespace gcode

/-- Embeds `gcode.AddLineAndHash` (src/gcode/gcode.go lines 8-15):
`str := fmt.Sprintf("N%d %s", lineno, gcode)`, XOR-fold its bytes,
return `fmt.Sprintf("%s*%d", str, sum)`. -/
def AddLineAndHash (lineno : Nat) (g : String) : String :=
  let str := "N" ++ toString lineno ++ " " ++ g
  str ++ "*" ++ toString (byteXorFold str)

end gcode

theorem stringBytes_lt (s : String) : ∀ b ∈ stringBytes s, b < 256 := by
  intro b hb
  simp only [stringBytes, List.mem_flatten, List.mem_map] at hb
  obtain ⟨l, ⟨c, _, hl⟩, hbl⟩ := hb
  subst hl
  simp only [List.mem_map] at hbl
  obtain ⟨u, _, hu⟩ := hbl
  subst hu
  exact UInt8.toNat_lt u

theorem byteXorFold_lt (s : String) : byteXorFold s < 256 := by
  unfold byteXorFold
  have h : ∀ (l : List Nat), (∀ b ∈ l, b < 256) → ∀ a < 256,
      l.foldl (fun a b => a ^^^ b) a < 256 := by
    intro l
    induction l with
    | nil => intro _ a ha; simpa using ha
    | cons x xs ih =>
      intro hmem a ha
      simp only [List.foldl_cons]
      refine ih (fun b hb => hmem b (List.mem_cons_of_mem _ hb)) _ ?_
      have hx : x < 256 := hmem x (List.mem_cons_self _ _)
      have := Nat.xor_lt_two_pow (n := 8) ha hx
      simpa using this
  exact h _ (stringBytes_lt s) 0 (by norm_num)

/-- C5: for every lineno `n` and command text `s`, the encoder returns
exactly `"N{n} {s}*{c}"` where `c` is the decimal rendering of the
unsigned 8-bit XOR-fold of every byte of `"N{n} {s}"` (the fold of UTF-8
bytes stays below 256, so it is its own 8-bit truncation); in particular
`encode(9, "G28 Z0 F150") = "N9 G28 Z0 F150*2"`. -/
theorem encode_checksum_framing :
    (∀ (n : Nat) (s : String),
        gcode.AddLineAndHash n s =
          "N" ++ toString n ++ " " ++ s ++ "*" ++
            toString (byteXorFold ("N" ++ toString n ++ " " ++ s))) ∧
    (∀ s : String, byteXorFold s < 256) ∧
    gcode.AddLineAndHash 9 "G28 Z0 F150" = "N9 G28 Z0 F150*2" := by
  refine ⟨fun n s => rfl, byteXorFold_lt, ?_⟩
  decide

/-! ## Serial downlink: inbound line classification
(`RealDownlink.readFromDevice`, src/unnamed/part_014 lines 276-321) -/

/-- Embeds `strconv.ParseUint(s, 10, 64)`: succeeds exactly when the whole
string is a non-empty run of decimal digits whose value fits in 64 bits. -/
def parseUint64 (s : List Char) : Option Nat :=
  if s.isEmpty then none
  else if s.all Char.isDigit then
    let n := s.foldl (fun a c => a * 10 + (c.toNat - 48)) 0
    if n < 2 ^ 64 then some n else none
  else none

/-- Embeds `strings.HasPrefix(s, pre)` at the byte/char level: the first
argument is the prefix `pre`, the second the string `s`. -/
def hasPrefixChars : List Char → List Char → Bool
  | [], _ => true
  | _ :: _, [] => false
  | p :: ps, c :: cs => p == c && hasPrefixChars ps cs

/-- Embeds `strings.Index(s, pat) >= 0` (the pattern occurs somewhere). -/
def containsSeq (s pat : List Char) : Bool :=
  (List.range (s.length + 1)).any (fun i => hasPrefixChars pat (s.drop i))

/-- Embeds `strings.TrimSpace` (for the ASCII payloads of this protocol). -/
def trimSpace (s : List Char) : List Char :=
  ((s.dropWhile Char.isWhitespace).reverse.dropWhile Char.isWhitespace).reverse

/-- The requests flowing into `RealDownlink.handleTraffic` (the `Request`
struct with its `Type` tags, src/unnamed/part_014 lines 23-30 and 157-162).
Channels are identified by a numeric id. -/
inductive Request where
  | okReq (lineno : Nat)
  | neverWaitForOKReq
  | waitForOKReq (lineno : Nat) (ackCh : Nat)
  | sendReq (lineno : Nat) (str : String)
  | resendReq (lineno : Nat)
  | resetReq
deriving DecidableEq

/-- Embeds the per-line classification in `RealDownlink.readFromDevice`
(src/unnamed/part_014 lines 282-316), applied to a trimmed line: the
Marlin banner posts `NeverWaitForOK`; a bare `ok` posts `OK(0)`; `ok <rest>`
posts `OK(n)` when the whole `<rest>` parses as a uint64 and `OK(0)`
otherwise (the code logs and "just ignores the lineno"); `Resend:<rest>`
posts `Resend(n)` when the trimmed `<rest>` parses, nothing otherwise.
Go converts the parsed uint64 with `int(lineno)`; that conversion is the
identity for values below 2^63, which covers every lineno in this
development. -/
def readFromDeviceLine (txt : List Char) : List Request :=
  (if containsSeq txt "echo:Marlin 1.1".data then [Request.neverWaitForOKReq] else []) ++
  (if txt = "ok".data then [Request.okReq 0]
   else if hasPrefixChars "ok ".data txt then
     match parseUint64 (txt.drop 3) with
     | some n => [Request.okReq n]
     | none => [Request.okReq 0]
   else if hasPrefixChars "Resend:".data txt then
     match parseUint64 (trimSpace (txt.drop 7)) with
     | some n => [Request.resendReq n]
     | none => []
   else [])

/-! ## Serial downlink: the traffic-handling actor
(`RealDownlink.handleTraffic`, src/unnamed/part_014 lines 164-274) -/

/-- Association-list lookup with Go map semantics (`v, ok := m[k]`). -/
def lookupA {α : Type} (k : Nat) : List (Nat × α) → Option α
  | [] => none
  | (k2, v) :: rest => if k2 = k then some v else lookupA k rest

/-- Association-list delete (`delete(m, k)`). -/
def eraseA {α : Type} (k : Nat) (l : List (Nat × α)) : List (Nat × α) :=
  l.filter (fun p => !(p.1 == k))

/-- Association-list overwrite (`m[k] = v`). -/
def insertA {α : Type} (k : Nat) (v : α) (l : List (Nat × α)) : List (Nat × α) :=
  (k, v) :: eraseA k l

/-- Set insertion (`m[k] = true` on a `map[int]bool`). -/
def insertSet (k : Nat) (l : List Nat) : List Nat :=
  if l.contains k then l else k :: l

/-- The local state of `handleTraffic`: the maps `oks`, `waits`, `hist`,
`resends` and the flags/counters declared at src/unnamed/part_014
lines 165-172.  `waits` maps a lineno to the id of the registered ack
channel. -/
structure TrafficState where
  oks : List Nat
  waits : List (Nat × Nat)
  hist : List (Nat × String)
  resends : List Nat
  lastWriteWasAResend : Bool
  lastResendLineno : Nat
  lastOKLineno : Nat
  neverWaitForOK : Bool
deriving DecidableEq

/-- The state at the top of `handleTraffic` (all maps fresh, counters 0). -/
def initTrafficState : TrafficState :=
  { oks := [], waits := [], hist := [], resends := [],
    lastWriteWasAResend := false, lastResendLineno := 0,
    lastOKLineno := 0, neverWaitForOK := false }

/-- Observable effects of the actor: a line written to the serial port
(`writeInternal`), a value sent on an ack channel, or a channel close. -/
inductive DLEvent where
  | wire (line : String)
  | ackTrue (ch : Nat)
  | ackFalse (ch : Nat)
  | closeCh (ch : Nat)
deriving DecidableEq

/-- Embeds the `send` closure of `handleTraffic` (lines 174-192): a resend
of a lineno recorded in `resends` is dropped; otherwise the command plus
`"\n"` goes to the port and the last-write-was-a-resend bookkeeping is
updated.  The serial write is modelled as succeeding (on a write error Go
returns `false` and skips the bookkeeping; transport loss is driven
through the `Reset` path, which is modelled separately).  Note the Go code
reads `resends[lineno]` but never assigns it. -/
def sendCmd (st : TrafficState) (lineno : Nat) (cmd : String) (isResend : Bool) :
    TrafficState × List DLEvent × Bool :=
  if isResend && st.resends.contains lineno then
    (st, [], true)
  else if isResend then
    ({ st with lastWriteWasAResend := true, lastResendLineno := lineno },
     [DLEvent.wire (cmd ++ "\n")], true)
  else
    ({ st with lastWriteWasAResend := false }, [DLEvent.wire (cmd ++ "\n")], true)

/-- One iteration of the backlog-replay loop inside the `SendType` case
(lines 226-231): `send(lineno, hist[lineno], true)`, with `hist[lineno]`
defaulting to `""` as a missing Go map entry does. -/
def sendBacklogStep (acc : TrafficState × List DLEvent) (k : Nat) :
    TrafficState × List DLEvent :=
  ((sendCmd acc.1 k ((lookupA k acc.1.hist).getD "") true).1,
   acc.2 ++ (sendCmd acc.1 k ((lookupA k acc.1.hist).getD "") true).2.1)

/-- Embeds one loop iteration of `RealDownlink.handleTraffic`
(src/unnamed/part_014 lines 193-273): the state transition and the emitted
events for a single request. -/
def handleTrafficStep (st : TrafficState) : Request → TrafficState × List DLEvent
  | .okReq l0 =>
    let lineno := if l0 = 0 then st.lastOKLineno + 1 else l0
    let st2 := { st with lastOKLineno := lineno,
                         oks := insertSet lineno st.oks,
                         hist := eraseA lineno st.hist }
    match lookupA lineno st2.waits with
    | some ch => ({ st2 with waits := eraseA lineno st2.waits }, [DLEvent.ackTrue ch])
    | none => (st2, [])
  | .neverWaitForOKReq => ({ st with neverWaitForOK := true }, [])
  | .waitForOKReq lineno ch =>
    if st.neverWaitForOK then (st, [DLEvent.ackFalse ch])
    else if st.oks.contains lineno then (st, [DLEvent.ackTrue ch])
    else if (lookupA lineno st.waits).isSome then (st, [])
    else ({ st with waits := insertA lineno ch st.waits }, [])
  | .sendReq lineno str =>
    let backlog : List Nat :=
      if st.lastWriteWasAResend && decide (st.lastResendLineno < lineno - 1) then
        List.range' (st.lastResendLineno + 1) (lineno - 1 - st.lastResendLineno)
      else []
    let acc := backlog.foldl sendBacklogStep (st, [])
    let res := sendCmd acc.1 lineno str false
    if res.2.2 then
      ({ res.1 with hist := insertA lineno str res.1.hist }, acc.2 ++ res.2.1)
    else
      (res.1, acc.2 ++ res.2.1)
  | .resendReq lineno =>
    match lookupA lineno st.hist with
    | none =>
      ((sendCmd st lineno "M105" false).1, (sendCmd st lineno "M105" false).2.1)
    | some cmd =>
      ((sendCmd st lineno cmd true).1, (sendCmd st lineno cmd true).2.1)
  | .resetReq =>
    ({ oks := [], waits := [], hist := [], resends := [],
       lastWriteWasAResend := false, lastResendLineno := 0,
       lastOKLineno := 0, neverWaitForOK := st.neverWaitForOK },
     st.waits.map (fun p => DLEvent.closeCh p.2))

/-- Runs the actor over a list of requests, accumulating events in order. -/
def runTraffic (st : TrafficState) : List Request → TrafficState × List DLEvent
  | [] => (st, [])
  | r :: rs =>
    match handleTrafficStep st r with
    | (st2, evs) =>
      match runTraffic st2 rs with
      | (st3, evs2) => (st3, evs ++ evs2)

/-! ## Serial downlink: the caller side
(`waitForOK` and `WriteAndWaitForOK`, src/unnamed/part_014 lines 126-155
and 323-343) -/

/-- The distinct error values a downlink caller can observe.  In Go,
`errOKNotR` below is the fresh `errors.New("OK not received")` allocated in
`waitForOK`; it is a different value from the package-level
`ErrConnectionReset`, which the equality test in `ExecuteGcode` compares
against. -/
inductive DownlinkError where
  | noDownlinkConnection
  | connectionReset
  | okNotReceived
  | contextCanceled
deriving DecidableEq

/-- What the select in `waitForOK` observes on the ack channel. -/
inductive AckOutcome where
  | received (ack : Bool)
  | channelClosed
  | ctxCanceled
deriving DecidableEq

/-- Embeds `waitForOK(ctx, reqCh, lineno)` (src/unnamed/part_014 lines
323-343): the requests it sends on `reqCh` (first the `WaitForOK`
registration, and on `ctx.Done()` additionally a `Reset`), and the error
it returns.  Receiving `false` from an open channel means never-ack
firmware: the caller sleeps 20 ms and returns nil.  A closed channel
yields the fresh "OK not received" error; a cancelled context yields
`context.Canceled`. -/
def waitForOK (lineno ackCh : Nat) (outcome : AckOutcome) :
    List Request × Option DownlinkError :=
  (Request.waitForOKReq lineno ackCh ::
     (match outcome with
      | .ctxCanceled => [Request.resetReq]
      | _ => []),
   match outcome with
   | .received _ => none
   | .channelClosed => some DownlinkError.okNotReceived
   | .ctxCanceled => some DownlinkError.contextCanceled)

/-! ## Executor retry loop (`Executor.ExecuteGcode`, src/executor.go
lines 169-185) -/

/-- Outcome of one pass of the per-command retry loop. -/
inductive RetryAction where
  | breakLoop
  | surfaceReset
  | surfaceCanceled
  | surfaceNotConnected
  | retry
deriving DecidableEq

/-- Embeds one pass of the retry loop around `WriteAndWaitForOK` in
`ExecuteGcode`: a nil error breaks out; an error equal to
`ErrConnectionReset` is returned immediately; otherwise the loop logs and
retries, surfacing `context.Canceled` if the context is cancelled and
`ErrNoDownlinkConnection` if `WaitForConnection(time.Minute)` times out. -/
def executeGcodeRetryStep (res : Option DownlinkError)
    (ctxCanceled connectedWithinMinute : Bool) : RetryAction :=
  match res with
  | none => RetryAction.breakLoop
  | some e =>
    if e = DownlinkError.connectionReset then RetryAction.surfaceReset
    else if ctxCanceled then RetryAction.surfaceCanceled
    else if !connectedWithinMinute then RetryAction.surfaceNotConnected
    else RetryAction.retry

/-! ## Helper lemmas about the traffic actor -/

theorem sendCmd_resends (st : TrafficState) (l : Nat) (c : String) (b : Bool) :
    (sendCmd st l c b).1.resends = st.resends := by
  unfold sendCmd
  split
  · rfl
  · split <;> rfl

theorem foldl_sendBacklogStep_resends (l : List Nat) :
    ∀ acc : TrafficState × List DLEvent,
      ((l.foldl sendBacklogStep acc).1).resends = acc.1.resends := by
  induction l with
  | nil => intro acc; rfl
  | cons k ks ih =>
    intro acc
    simp only [List.foldl_cons]
    rw [ih]
    exact sendCmd_resends acc.1 k ((lookupA k acc.1.hist).getD "") true

/-- In `handleTraffic`, the `resends` map is only ever read or
re-initialized: no request ever adds an entry to it. -/
theorem handleTrafficStep_resends (st : TrafficState) (r : Request) :
    (handleTrafficStep st r).1.resends = st.resends ∨
      (handleTrafficStep st r).1.resends = [] := by
  cases r with
  | okReq l0 =>
    left
    simp only [handleTrafficStep]
    split <;> rfl
  | neverWaitForOKReq => left; rfl
  | waitForOKReq lineno ch =>
    left
    simp only [handleTrafficStep]
    split
    · rfl
    · split
      · rfl
      · split <;> rfl
  | sendReq lineno str =>
    left
    simp only [handleTrafficStep]
    split <;> split <;>
      simp [sendCmd_resends, foldl_sendBacklogStep_resends]
  | resendReq lineno =>
    left
    simp only [handleTrafficStep]
    split <;> simp [sendCmd_resends]
  | resetReq => right; rfl

theorem lookupA_eraseA {α : Type} (k : Nat) (l : List (Nat × α)) :
    lookupA k (eraseA k l) = none := by
  induction l with
  | nil => rfl
  | cons p rest ih =>
    unfold eraseA at ih ⊢
    by_cases h : p.1 = k
    · simp [List.filter_cons, h, ih]
    · simp [List.filter_cons, h, lookupA, ih]

theorem mem_insertSet (k : Nat) (l : List Nat) : k ∈ insertSet k l := by
  unfold insertSet
  split
  · next h => simpa using h
  · exact List.mem_cons_self _ _

/-! ## Claim theorems about the downlink -/

/-- C1, code evaluated at the failing input: with `history = {3 ↦ cmd}`,
the code retransmits `cmd` for the first `Resend(3)` AND AGAIN for the
second `Resend(3)` (three wire lines in total, counting the original
send), and lineno 3 is never recorded in `resends`; moreover no request
ever adds an entry to `resends`, so the "one retry only" drop branch in
`send` is unreachable.  This contradicts the claim (and the code's own
comment) that a line is retransmitted at most once per connection. -/
theorem resend_retransmits_every_time :
    ((runTraffic initTrafficState
        [Request.sendReq 3 "N3 G1 Z5.000000*12", Request.resendReq 3,
         Request.resendReq 3]).2 =
      [DLEvent.wire "N3 G1 Z5.000000*12\n", DLEvent.wire "N3 G1 Z5.000000*12\n",
       DLEvent.wire "N3 G1 Z5.000000*12\n"]) ∧
    ((runTraffic initTrafficState
        [Request.sendReq 3 "N3 G1 Z5.000000*12", Request.resendReq 3,
         Request.resendReq 3]).1.resends = []) ∧
    (∀ (st : TrafficState) (r : Request),
        (handleTrafficStep st r).1.resends = st.resends ∨
          (handleTrafficStep st r).1.resends = []) :=
  ⟨by decide, by decide, handleTrafficStep_resends⟩

/-- C2 counterexample: decoding `"ok 5 T:20"` does not ignore the trailing
fields and yield `OK(5)`; the whole remainder `"5 T:20"` fails
`strconv.ParseUint`, so the line is decoded as `OK(0)` (lineno treated as
missing). -/
theorem ok_trailing_fields_drop_lineno :
    readFromDeviceLine "ok 5 T:20".data ≠ [Request.okReq 5] ∧
    readFromDeviceLine "ok 5 T:20".data = [Request.okReq 0] := by
  decide

/-- C2 amended: an `ok <rest>` line yields `OK(n)` only when the entire
remainder parses as a decimal uint64, and otherwise (missing, `N`-prefixed
or trailed lineno) falls back to `OK(0)`; a bare `ok` yields `OK(0)`; and
the actor treats `OK(0)` as acknowledging `lastOkLineno + 1`, advancing
`lastOkLineno`, marking that lineno acked and dropping it from history. -/
theorem ok_decode_and_missing_lineno :
    (∀ tail : List Char,
        containsSeq ('o' :: 'k' :: ' ' :: tail) "echo:Marlin 1.1".data = false →
        readFromDeviceLine ('o' :: 'k' :: ' ' :: tail) =
          [Request.okReq ((parseUint64 tail).getD 0)]) ∧
    readFromDeviceLine "ok".data = [Request.okReq 0] ∧
    (∀ st : TrafficState,
        (handleTrafficStep st (Request.okReq 0)).1.lastOKLineno =
            st.lastOKLineno + 1 ∧
          st.lastOKLineno + 1 ∈ (handleTrafficStep st (Request.okReq 0)).1.oks ∧
          lookupA (st.lastOKLineno + 1)
              (handleTrafficStep st (Request.okReq 0)).1.hist = none) := by
  refine ⟨?_, by decide, ?_⟩
  · intro tail h
    unfold readFromDeviceLine
    rw [h]
    have hne : ('o' :: 'k' :: ' ' :: tail) ≠ "ok".data := by simp
    rw [if_neg hne]
    have hpre : hasPrefixChars "ok ".data ('o' :: 'k' :: ' ' :: tail) = true := rfl
    rw [if_pos hpre]
    cases hp : parseUint64 tail <;> simp [hp]
  · intro st
    simp only [handleTrafficStep]
    split <;>
      simp [mem_insertSet, lookupA_eraseA]

/-- Witness for `ok_decode_and_missing_lineno` at the tail `"42"`. -/
theorem ok_decode_and_missing_lineno_witness :
    readFromDeviceLine ('o' :: 'k' :: ' ' :: "42".data) = [Request.okReq 42] := by
  have h := ok_decode_and_missing_lineno.1 "42".data (by decide)
  exact h.trans (by decide)

/-- C3, code evaluated at the failing input: on link loss the actor does
close every pending wait channel, but a caller observing the closed
channel gets the fresh "OK not received" error, which is a different value
from `ErrConnectionReset`; `ExecuteGcode` therefore takes the retry path
(after `WaitForConnection(time.Minute)`) instead of its
surface-immediately branch, which only fires on `ErrConnectionReset`
itself.  Cancellation and connection-timeout are surfaced as the claim
says. -/
theorem reset_error_identity_lost :
    (∀ st : TrafficState,
        (handleTrafficStep st Request.resetReq).2 =
          st.waits.map (fun p => DLEvent.closeCh p.2)) ∧
    (∀ lineno ch : Nat,
        (waitForOK lineno ch AckOutcome.channelClosed).2 =
          some DownlinkError.okNotReceived) ∧
    DownlinkError.okNotReceived ≠ DownlinkError.connectionReset ∧
    executeGcodeRetryStep (some DownlinkError.okNotReceived) false true =
      RetryAction.retry ∧
    executeGcodeRetryStep (some DownlinkError.connectionReset) false true =
      RetryAction.surfaceReset ∧
    executeGcodeRetryStep (some DownlinkError.okNotReceived) true true =
      RetryAction.surfaceCanceled ∧
    executeGcodeRetryStep (some DownlinkError.okNotReceived) false false =
      RetryAction.surfaceNotConnected :=
  ⟨fun _ => rfl, fun _ _ => rfl, by decide, by decide, by decide, by decide,
   by decide⟩

/-- A traffic state with two registered waiters (linenos 1 and 2 on
channels 10 and 20) and both lines still in history. -/
def twoWaitersState : TrafficState :=
  { initTrafficState with
    waits := [(1, 10), (2, 20)],
    hist := [(1, "N1 G4 P1*49"), (2, "N2 G4 P1*50")] }

/-- C4 counterexample: a context cancellation makes `waitForOK` post a
full `Reset` to the actor, not a single-registration discard.  With a
second caller waiting on lineno 2 (channel 20) and both lines in history,
processing that `Reset` empties the wait map (the other caller's channel
20 is closed) and wipes the history — the claim's frame condition "all
other downlink state is left unchanged" fails at this input. -/
theorem cancel_wipes_other_waiters :
    (waitForOK 1 10 AckOutcome.ctxCanceled).1 =
      [Request.waitForOKReq 1 10, Request.resetReq] ∧
    (waitForOK 1 10 AckOutcome.ctxCanceled).2 =
      some DownlinkError.contextCanceled ∧
    lookupA 2 (handleTrafficStep twoWaitersState Request.resetReq).1.waits = none ∧
    DLEvent.closeCh 20 ∈ (handleTrafficStep twoWaitersState Request.resetReq).2 ∧
    (handleTrafficStep twoWaitersState Request.resetReq).1.hist = [] := by
  decide

/-- C4 amended: on context cancellation the caller returns
`context.Canceled` and the FSM receives a `Reset` message; processing it
closes every pending wait channel and re-initializes the ack/history/
resend state and counters (only the never-ack flag survives).  The
cancellation path performs no wire write and no write-abort: the only
events of a `Reset` are channel closes, so the in-flight line stays on
the wire. -/
theorem cancellation_sends_reset :
    (∀ lineno ch : Nat,
        (waitForOK lineno ch AckOutcome.ctxCanceled).2 =
            some DownlinkError.contextCanceled ∧
          (waitForOK lineno ch AckOutcome.ctxCanceled).1 =
            [Request.waitForOKReq lineno ch, Request.resetReq]) ∧
    (∀ st : TrafficState,
        (handleTrafficStep st Request.resetReq).1 =
            { oks := [], waits := [], hist := [], resends := [],
              lastWriteWasAResend := false, lastResendLineno := 0,
              lastOKLineno := 0, neverWaitForOK := st.neverWaitForOK } ∧
          (handleTrafficStep st Request.resetReq).2 =
            st.waits.map (fun p => DLEvent.closeCh p.2)) :=
  ⟨fun _ _ => ⟨rfl, rfl⟩, fun _ => ⟨rfl, rfl⟩⟩

/-! ## Connection initialization and lineno assignment
(`RealDownlink.Run` lines 86-99 and `takeLineno` lines 126-134 of
src/unnamed/part_014) -/

/-- The mutex-protected connection fields of `RealDownlink` (`conn` as a
presence flag, and the `lineno` counter). -/
structure DownlinkConn where
  connected : Bool
  lineno : Nat
deriving DecidableEq

/-- Embeds the successful-connection branch of `RealDownlink.Run`: write
`"M110 N0\n"` and `gcode.AddLineAndHash(1, "M105\n")` to the fresh port,
then store the connection and set `dl.lineno = 0`.  Returns the new state
and the two initialization writes in order. -/
def connInit : DownlinkConn × List String :=
  ({ connected := true, lineno := 0 },
   ["M110 N0\n", gcode.AddLineAndHash 1 "M105\n"])

/-- Embeds `RealDownlink.takeLineno`: fail with `ErrNoDownlinkConnection`
when there is no connection, otherwise increment `dl.lineno` and return
it. -/
def takeLineno (st : DownlinkConn) : Except DownlinkError (Nat × DownlinkConn) :=
  if st.connected then
    Except.ok (st.lineno + 1, { st with lineno := st.lineno + 1 })
  else
    Except.error DownlinkError.noDownlinkConnection

/-- The linenos handed to `k` successive `WriteAndWaitForOK` callers. -/
def takeLinenos (st : DownlinkConn) : Nat → List Nat
  | 0 => []
  | k + 1 =>
    match takeLineno st with
    | Except.ok (n, st2) => n :: takeLinenos st2 k
    | Except.error _ => []

theorem takeLinenos_connected (k : Nat) :
    ∀ m : Nat, takeLinenos { connected := true, lineno := m } k =
      List.range' (m + 1) k := by
  induction k with
  | zero => intro m; rfl
  | succ k ih =>
    intro m
    simp only [takeLinenos, takeLineno, if_pos]
    rw [List.range'_succ]
    exact congrArg (List.cons (m + 1)) (ih (m + 1))

/-- C10: on every successful (re)connection the downlink writes
`"M110 N0"` and an encoded `M105` carrying lineno 1 (the encoding starts
with `"N1 "`), then resets the internal lineno counter to 0; `takeLineno`
then assigns linenos 1, 2, 3, ... consecutively to successive callers, so
the first caller command after a connection is numbered 1 — the same
lineno as the initialization M105. -/
theorem connection_init_lineno_reuse :
    connInit.2 = ["M110 N0\n", gcode.AddLineAndHash 1 "M105\n"] ∧
    hasPrefixChars "N1 ".data (gcode.AddLineAndHash 1 "M105\n").data = true ∧
    connInit.1.lineno = 0 ∧
    (∀ k : Nat, takeLinenos connInit.1 k = List.range' 1 k) ∧
    (takeLinenos connInit.1 1 = [1]) := by
  refine ⟨rfl, by decide, rfl, ?_, by decide⟩
  intro k
  exact takeLinenos_connected k 0

/-! ## Shell job slot (src/shell.go lines 117-147 and 235-250) -/

/-- The job-slot portion of `Shell` state: whether `curJobCancel` is set. -/
structure ShellState where
  curJobActive : Bool
deriving DecidableEq

/-- Embeds `Shell.getNewJobContext`: under the mutex, refuse with
"job is already running" when `curJobCancel != nil`, otherwise create the
job context and store its cancel function. -/
def getNewJobContext (st : ShellState) : Except String ShellState :=
  if st.curJobActive then Except.error "job is already running"
  else Except.ok { curJobActive := true }

/-- Embeds `Shell.clearCurrentJob`. -/
def clearCurrentJob (_ : ShellState) : ShellState :=
  { curJobActive := false }

/-- The outbound notifications relevant to the job slot. -/
inductive Notification where
  | jobDone (jobName : String) (success : Bool) (comment : String)
deriving DecidableEq

/-- Whether an external call (`FetchJob` / `ExecuteGcode`) succeeded. -/
def isOkE (r : Except String Unit) : Bool :=
  match r with
  | Except.ok _ => true
  | Except.error _ => false

/-- Embeds the job goroutine of the `fetch-and-print` case (shell.go lines
124-146) run to completion, with the outcomes of `FetchJob` and
`ExecuteGcode` supplied as parameters: the deferred block clears the
current job and emits exactly one `JobDone` whose success flag is
`err == nil` and whose comment is `"OK"` on success and the error text
otherwise.  `ExecuteGcode` is only reached when the fetch succeeded. -/
def runFetchAndPrint (st : ShellState) (jobName : String)
    (fetchRes execRes : Except String Unit) : ShellState × List Notification :=
  let err : Option String :=
    match fetchRes with
    | Except.error e => some e
    | Except.ok _ =>
      match execRes with
      | Except.error e => some e
      | Except.ok _ => none
  (clearCurrentJob st,
   [Notification.jobDone jobName err.isNone (err.getD "OK")])

/-- Embeds the `fetch-and-print` verb dispatch (shell.go lines 117-147):
acquire the job slot; a refusal emits one `JobDone(false, comment)` with
the refusal text and leaves the slot untouched; an accepted verb runs the
job goroutine. -/
def fetchAndPrintVerb (st : ShellState) (jobName : String)
    (fetchRes execRes : Except String Unit) : ShellState × List Notification :=
  match getNewJobContext st with
  | Except.error e => (st, [Notification.jobDone jobName false e])
  | Except.ok st2 => runFetchAndPrint st2 jobName fetchRes execRes

/-- The success flag of a `jobDone` notification. -/
def jobDoneSuccess : Notification → Bool
  | Notification.jobDone _ s _ => s

/-- C6: the job slot admits at most one fetch-and-print at a time: a verb
arriving while a job context exists emits exactly one
`JobDone(false, "job is already running")` and leaves the slot busy, and
every accepted verb emits exactly one `JobDone`, successful exactly when
both the fetch and the g-code execution succeed, releasing the slot. -/
theorem fetch_and_print_single_jobdone :
    ∀ (name : String) (fr er : Except String Unit),
      (∀ st : ShellState, (fetchAndPrintVerb st name fr er).2.length = 1) ∧
      getNewJobContext { curJobActive := true } =
        Except.error "job is already running" ∧
      getNewJobContext { curJobActive := false } =
        Except.ok { curJobActive := true } ∧
      fetchAndPrintVerb { curJobActive := true } name fr er =
        ({ curJobActive := true },
         [Notification.jobDone name false "job is already running"]) ∧
      ((fetchAndPrintVerb { curJobActive := false } name fr er).2.map
          jobDoneSuccess = [isOkE fr && isOkE er]) ∧
      (fetchAndPrintVerb { curJobActive := false } name fr er).1 =
        { curJobActive := false } := by
  intro name fr er
  refine ⟨?_, rfl, rfl, rfl, ?_, ?_⟩
  · intro st
    cases hs : st.curJobActive with
    | true =>
      cases st
      simp_all [fetchAndPrintVerb, getNewJobContext, runFetchAndPrint]
    | false =>
      cases st
      cases fr <;> cases er <;>
        simp_all [fetchAndPrintVerb, getNewJobContext, runFetchAndPrint]
  · cases fr <;> cases er <;>
      simp [fetchAndPrintVerb, getNewJobContext, runFetchAndPrint, isOkE,
        jobDoneSuccess]
  · cases fr <;> cases er <;>
      simp [fetchAndPrintVerb, getNewJobContext, runFetchAndPrint,
        clearCurrentJob]

/-! ## ExecuteGcode progress notifications (src/executor.go lines 70-188)

Progress values are percentages carried as float64; every value produced
is a multiple of 0.01 (the constants 0.01, 0.02, 0.05 and the tenths
`float64(int(float64(i*1000)/float64(n)))/10`), so the trace is modelled
exactly in integer hundredths of a percent.  For command counts below
2^43 the float64 division and truncation agree with natural floor
division, and the float comparisons agree with the integer ones. -/

/-- The progress value of loop index `i` out of `n` commands, in
hundredths: `float64(int(float64(i*1000)/float64(n)))/10`, bumped to 0.05
when it is zero. -/
def progressAt (n i : Nat) : Nat :=
  if i * 1000 / n = 0 then 5 else i * 1000 / n * 10

/-- The `JobProgress` values emitted by the main loop: one per index at
which the freshly computed progress exceeds `lastProgress` (which starts
at 0). -/
def progressEmissions (n : Nat) (lastProgress : Nat) : List Nat → List Nat
  | [] => []
  | i :: is =>
    if lastProgress < progressAt n i then
      progressAt n i :: progressEmissions n (progressAt n i) is
    else
      progressEmissions n lastProgress is

/-- The full `JobProgress` trace of one `ExecuteGcode` run over `n`
commands, in hundredths: the preliminary 0.01 and 0.02 notifications,
then the loop emissions.  `stopAt = some k` models an error return from
loop index `k` (device failure after the retries, host-command failure,
or cancellation); the abort-sequence defer (lines 113-127) then emits a
final `JobProgress(jobName, 0, 0, 0)`.  `stopAt = none` is a successful
run. -/
def executeGcodeProgressTrace (n : Nat) (stopAt : Option Nat) : List Nat :=
  [1, 2] ++ progressEmissions n 0 (List.range (match stopAt with
    | some k => min k n
    | none => n)) ++
  (match stopAt with
   | some _ => [0]
   | none => [])

theorem progressAt_ge_five (n i : Nat) : 5 ≤ progressAt n i := by
  unfold progressAt
  split
  · exact le_refl 5
  · next h => omega

theorem progressEmissions_chain (n : Nat) (l : List Nat) :
    ∀ lastProgress : Nat,
      List.Chain' (· < ·) (progressEmissions n lastProgress l) ∧
      ∀ x ∈ progressEmissions n lastProgress l, lastProgress < x ∧ 5 ≤ x := by
  induction l with
  | nil => intro last; exact ⟨List.chain'_nil, by simp [progressEmissions]⟩
  | cons i is ih =>
    intro last
    unfold progressEmissions
    split
    · next hlt =>
      obtain ⟨hchain, hmem⟩ := ih (progressAt n i)
      refine ⟨?_, ?_⟩
      · refine List.chain'_cons'.mpr ⟨?_, hchain⟩
        intro b hb
        exact (hmem b (List.mem_of_mem_head? hb)).1
      · intro x hx
        rcases List.mem_cons.mp hx with hx | hx
        · subst hx
          exact ⟨hlt, progressAt_ge_five n i⟩
        · obtain ⟨h1, h2⟩ := hmem x hx
          exact ⟨lt_trans hlt h1, h2⟩
    · next hge =>
      exact ih last

theorem progressPrefix_chain (n stop : Nat) :
    List.Chain' (· ≤ ·) ([1, 2] ++ progressEmissions n 0 (List.range stop)) := by
  obtain ⟨hchain, hmem⟩ := progressEmissions_chain n (List.range stop) 0
  have hchain2 : List.Chain' (· ≤ ·) (progressEmissions n 0 (List.range stop)) :=
    List.Chain'.imp (fun a b h => le_of_lt h) hchain
  simp only [List.cons_append, List.nil_append]
  refine List.chain'_cons.mpr ⟨by norm_num, ?_⟩
  refine List.chain'_cons'.mpr ⟨?_, hchain2⟩
  intro b hb
  have := (hmem b (List.mem_of_mem_head? hb)).2
  omega

/-- C7 counterexample: a run of 20 commands failing at loop index 10
emits 1, 2, 5, 500, ..., 4500 and then — from the abort-sequence defer —
a final 0, so the emitted `JobProgress` values are not monotonically
non-decreasing over the whole run. -/
theorem progress_drops_to_zero_on_abort :
    ¬ List.Chain' (· ≤ ·) (executeGcodeProgressTrace 20 (some 10)) := by
  have h : executeGcodeProgressTrace 20 (some 10) =
      [1, 2, 5, 500, 1000, 1500, 2000, 2500, 3000, 3500, 4000, 4500, 0] := by
    decide
  rw [h]
  simp [List.chain'_cons]

/-- C7 amended: on a successful `ExecuteGcode` run every emitted
`JobProgress` value is greater than or equal to the previous one (so in
particular the final emission before a successful return is ≥ the last
preceding one); on a failing run the emissions are non-decreasing up to
the abort path, which then emits a final progress 0. -/
theorem progress_monotone_until_abort :
    ∀ n k : Nat,
      List.Chain' (· ≤ ·) (executeGcodeProgressTrace n none) ∧
      executeGcodeProgressTrace n (some k) =
        ([1, 2] ++ progressEmissions n 0 (List.range (min k n))) ++ [0] ∧
      List.Chain' (· ≤ ·)
        ([1, 2] ++ progressEmissions n 0 (List.range (min k n))) := by
  intro n k
  refine ⟨?_, by simp [executeGcodeProgressTrace], progressPrefix_chain n (min k n)⟩
  have h := progressPrefix_chain n n
  simpa [executeGcodeProgressTrace] using h

/-! ## Fetch whitelist (`Executor.getURL`, src/executor.go lines 255-290)

`url.Parse` is modelled by taking an already-parsed URL as a record of
scheme, hostname (`url.Hostname()`, the host with any port stripped) and
path.  `path.Clean` is modelled faithfully by its standard
segment-stack semantics. -/

/-- Splits on `'/'`, keeping empty segments (like `strings.Split`). -/
def splitSlash (l : List Char) : List (List Char) :=
  l.foldr
    (fun c acc =>
      if c = '/' then [] :: acc
      else
        match acc with
        | [] => [[c]]
        | g :: gs => (c :: g) :: gs)
    [[]]

/-- The element-processing loop of `path.Clean`: skip empty and `"."`
segments; on `".."` pop the stack unless at the root (rooted paths drop
leading `".."`, relative paths keep them); otherwise push. -/
def cleanSegs (rooted : Bool) : List (List Char) → List (List Char) → List (List Char)
  | acc, [] => acc.reverse
  | acc, seg :: rest =>
    if seg.isEmpty || seg = ['.'] then cleanSegs rooted acc rest
    else if seg = ['.', '.'] then
      match acc with
      | [] =>
        if rooted then cleanSegs rooted [] rest
        else cleanSegs rooted [['.', '.']] rest
      | top :: accRest =>
        if top = ['.', '.'] then cleanSegs rooted (seg :: top :: accRest) rest
        else cleanSegs rooted accRest rest
    else cleanSegs rooted (seg :: acc) rest

/-- Joins segments with `'/'`. -/
def joinSlash : List (List Char) → List Char
  | [] => []
  | [g] => g
  | g :: gs => g ++ '/' :: joinSlash gs

/-- Embeds Go's `path.Clean`: empty input becomes `"."`; otherwise
resolve `"."`/`".."`/empty segments and re-join, keeping a leading
`'/'` for rooted paths (a rooted path with nothing left is `"/"`, a
relative one is `"."`). -/
def pathClean (p : List Char) : List Char :=
  if p.isEmpty then ['.']
  else
    let rooted := hasPrefixChars ['/'] p
    let body := joinSlash (cleanSegs rooted [] (splitSlash p))
    if rooted then '/' :: body
    else if body.isEmpty then ['.'] else body

/-- A parsed URL: `url.Parse` result, with `hostname` standing for
`url.Hostname()` (host without the port). -/
structure GoURL where
  scheme : String
  hostname : String
  path : List Char
deriving DecidableEq

/-- The refusal returned for non-whitelisted URLs. -/
def securityRefusalMsg : String :=
  "downloading arbitrary urls is disabled for security reasons. " ++
    "Let us know if you need this functionality by writing at beta@robodone.com"

/-- Embeds `Executor.getURL` up to the actual HTTP transfer: clean the
path in place, refuse unless the hostname is `storage.googleapis.com` and
the cleaned path has the prefix `/robosla-data/`, and otherwise hand the
cleaned URL to the transfer (`http.Get` + `readAll`), supplied here as
the function `fetch`. -/
def getURLModel (fetch : GoURL → Except String (List Nat)) (u0 : GoURL) :
    Except String (List Nat) :=
  let u := { u0 with path := pathClean u0.path }
  if !(u.hostname == "storage.googleapis.com") ||
      !(hasPrefixChars "/robosla-data/".data u.path) then
    Except.error securityRefusalMsg
  else
    fetch u

/-- The host/path whitelist actually enforced by `getURL`. -/
def hostPathWhitelisted (u : GoURL) : Bool :=
  u.hostname == "storage.googleapis.com" &&
    hasPrefixChars "/robosla-data/".data (pathClean u.path)

/-- C8 counterexample: the whitelist does not validate the scheme.  A URL
with scheme `"ftp"` (not HTTPS), host `storage.googleapis.com` and path
`/robosla-data/a.zip` passes validation and is handed to the transfer,
refuting the claim that scheme, host and path are all validated. -/
theorem getURL_ignores_scheme :
    getURLModel (fun _ => Except.ok [7])
        { scheme := "ftp", hostname := "storage.googleapis.com",
          path := "/robosla-data/a.zip".data } = Except.ok [7] ∧
    hostPathWhitelisted
        { scheme := "ftp", hostname := "storage.googleapis.com",
          path := "/robosla-data/a.zip".data } = true := by
  exact ⟨rfl, by decide⟩

/-- C8 amended: `getURL` validates only the host and the cleaned path —
hostname `storage.googleapis.com` and cleaned-path prefix
`/robosla-data/`; the scheme is not checked.  Any URL failing that
host/path whitelist is rejected with the security-refusal error and
nothing is downloaded (the result does not depend on the transfer
function); any URL passing it is handed, path-cleaned, to the
transfer regardless of its scheme. -/
theorem getURL_host_path_whitelist
    (f g : GoURL → Except String (List Nat)) (u : GoURL) (s : String) :
    (hostPathWhitelisted u = false →
        getURLModel f u = Except.error securityRefusalMsg ∧
        getURLModel f u = getURLModel g u) ∧
    (hostPathWhitelisted u = true →
        getURLModel f u = f { u with path := pathClean u.path }) ∧
    hostPathWhitelisted u = hostPathWhitelisted { u with scheme := s } := by
  refine ⟨?_, ?_, rfl⟩
  · intro h
    unfold getURLModel
    unfold hostPathWhitelisted at h
    rw [Bool.and_eq_false_iff] at h
    rcases h with h | h <;> simp [h]
  · intro h
    unfold getURLModel
    unfold hostPathWhitelisted at h
    rw [Bool.and_eq_true] at h
    simp [h.1, h.2]

/-- Witness for `getURL_host_path_whitelist`: a URL outside the whitelist
is refused independently of the transfer, a whitelisted one is fetched. -/
theorem getURL_host_path_whitelist_witness :
    (getURLModel (fun _ => Except.ok [1])
        { scheme := "https", hostname := "evil.example.com",
          path := "/robosla-data/a.zip".data } =
      Except.error securityRefusalMsg) ∧
    (getURLModel (fun _ => Except.ok [1])
        { scheme := "https", hostname := "evil.example.com",
          path := "/robosla-data/a.zip".data } =
      getURLModel (fun _ => Except.error "net")
        { scheme := "https", hostname := "evil.example.com",
          path := "/robosla-data/a.zip".data }) ∧
    (getURLModel (fun _ => Except.ok [1])
        { scheme := "https", hostname := "storage.googleapis.com",
          path := "/x/../robosla-data/a.zip".data } = Except.ok [1]) := by
  refine ⟨?_, ?_, ?_⟩
  · exact ((getURL_host_path_whitelist (fun _ => Except.ok [1])
      (fun _ => Except.error "net")
      { scheme := "https", hostname := "evil.example.com",
        path := "/robosla-data/a.zip".data } "s").1 (by decide)).1
  · exact ((getURL_host_path_whitelist (fun _ => Except.ok [1])
      (fun _ => Except.error "net")
      { scheme := "https", hostname := "evil.example.com",
        path := "/robosla-data/a.zip".data } "s").1 (by decide)).2
  · have h := (getURL_host_path_whitelist (fun _ => Except.ok [1])
      (fun _ => Except.ok [1])
      { scheme := "https", hostname := "storage.googleapis.com",
        path := "/x/../robosla-data/a.zip".data } "s").2.1 (by decide)
    exact h.trans rfl

end Robosla
